import Mathlib

/-!
Verification of the transactional record-store coordination layer in
`src/db.h` (classes `CDBEnv` and `CDB`, a wrapper over Berkeley DB).

The embedding models the Berkeley DB engine at its interface boundary
(point get/put/del/exists, cursor get, transaction begin/commit/abort)
and translates the bodies of the `CDB`/`CDBEnv` member functions from
the header. Byte strings are `List Nat`; the engine's per-file contents
are an association list from serialized keys to serialized values;
engine status codes are `Int` (0 = success, Berkeley DB errors in the
range [-30999, -30800]). The defensive `assert` calls in `Write`/`Erase`
are modelled as a distinguished `Except.error` outcome, so that process
termination is distinguishable from a `false` return value.
-/

/-- Serialized record bytes (`CDataStream` contents / `DBT` data). -/
abbrev Bytes := List Nat

/-- Contents of one open Berkeley DB file: serialized key/value pairs. -/
abbrev EngineDB := List (Bytes × Bytes)

/-- Berkeley DB status code `DB_NOTFOUND` (a value in the BDB error range). -/
def DB_NOTFOUND : Int := -30988

/-- Berkeley DB status code `DB_KEYEXIST` (a value in the BDB error range). -/
def DB_KEYEXIST : Int := -30995

/-- Berkeley DB put flag `DB_NOOVERWRITE`. -/
def DB_NOOVERWRITE : Nat := 22

/-- Berkeley DB cursor positioning flag `DB_NEXT`. -/
def DB_NEXT : Nat := 16

/-- Berkeley DB cursor positioning flag `DB_SET`. -/
def DB_SET : Nat := 26

/-- Berkeley DB cursor positioning flag `DB_SET_RANGE`. -/
def DB_SET_RANGE : Nat := 27

/-- Berkeley DB cursor positioning flag `DB_GET_BOTH`. -/
def DB_GET_BOTH : Nat := 8

/-- Berkeley DB cursor positioning flag `DB_GET_BOTH_RANGE`. -/
def DB_GET_BOTH_RANGE : Nat := 10

/-- Berkeley DB transaction flag `DB_TXN_WRITE_NOSYNC` (write-no-sync durability). -/
def DB_TXN_WRITE_NOSYNC : Nat := 32

/-- The range of status codes reserved by Berkeley DB for its own errors. -/
def isBdbErrorCode (r : Int) : Prop := -30999 ≤ r ∧ r ≤ -30800

/-- Association-list lookup: value stored under the first matching key. -/
def alookup {α β : Type} [DecidableEq α] : List (α × β) → α → Option β
  | [], _ => none
  | (a, b) :: rest, x => if a = x then some b else alookup rest x

/-- Association-list store: replace the first binding of `x`, or append one. -/
def aset {α β : Type} [DecidableEq α] : List (α × β) → α → β → List (α × β)
  | [], x, y => [(x, y)]
  | (a, b) :: rest, x, y => if a = x then (x, y) :: rest else (a, b) :: aset rest x y

/-- Association-list delete: remove every binding of `x`. -/
def aerase {α β : Type} [DecidableEq α] : List (α × β) → α → List (α × β)
  | [], _ => []
  | (a, b) :: rest, x => if a = x then aerase rest x else (a, b) :: aerase rest x

/-- The engine interface the record accessor issues point operations
against: `DB->get`, `DB->put`, `DB->del`, `DB->exists`. Each returns the
raw `Int` status (and the updated file contents for the mutators).
Keeping it abstract lets theorems quantify over every engine behavior;
`bdbEngine` below is the deterministic model of a correct engine. -/
structure Engine where
  get : EngineDB → Bytes → Int × Option Bytes
  put : EngineDB → Bytes → Bytes → Nat → Int × EngineDB
  del : EngineDB → Bytes → Int × EngineDB
  exst : EngineDB → Bytes → Int

/-- The deterministic model of a correct Berkeley DB engine on one file:
`get` returns the stored bytes or `DB_NOTFOUND`; `put` honors
`DB_NOOVERWRITE` with `DB_KEYEXIST`; `del` reports `DB_NOTFOUND` for an
absent key; `exst` mirrors `get`. -/
def bdbEngine : Engine where
  get d k :=
    match alookup d k with
    | some v => (0, some v)
    | none => (DB_NOTFOUND, none)
  put d k v flags :=
    if flags = DB_NOOVERWRITE ∧ (alookup d k).isSome = true then (DB_KEYEXIST, d)
    else (0, aset d k v)
  del d k :=
    if (alookup d k).isSome = true then (0, aerase d k) else (DB_NOTFOUND, d)
  exst d k :=
    if (alookup d k).isSome = true then 0 else DB_NOTFOUND

/-- The pluggable serialization capability (`CDataStream` streaming of a
typed key or value, spec section 3 `SerializedRecord`): `enc` is the
`ss << x` direction, `dec` the `ss >> x` direction, with `none` standing
for the caught deserialization exception. -/
structure Codec (α : Type) where
  enc : α → Bytes
  dec : Bytes → Option α

/-- State of one `CDB` record accessor: the Berkeley DB handle `pdb`
(`none` models a null `DB*`; `some d` an open handle on file contents
`d`), the active transaction `activeTxn` (`none` models a null
`DB_TXN*`), and the read-only flag `fReadOnly`. -/
structure CDB where
  pdb : Option EngineDB
  activeTxn : Option Nat
  fReadOnly : Bool
deriving DecidableEq

/-- `CDB::Read` (db.h lines 113-146): null-handle check, encode the key,
engine point get; a null `datValue.data` returns false; a
deserialization exception is caught and returns false; otherwise the
decoded value is delivered and the result is `ret == 0`. -/
def CDB.Read {K T : Type} (E : Engine) (cK : Codec K) (cT : Codec T)
    (s : CDB) (key : K) : Bool × Option T :=
  match s.pdb with
  | none => (false, none)
  | some d =>
    let r := E.get d (cK.enc key)
    match r.2 with
    | none => (false, none)
    | some bs =>
      match cT.dec bs with
      | none => (false, none)
      | some v => (decide (r.1 = 0), some v)

/-- `CDB::Write` (db.h lines 148-176): null-handle check returns false;
then `assert(!"Write called on database in read-only mode")` on a
read-only accessor, modelled as a distinguished `Except.error`; then
encode key and value and issue the engine put with `DB_NOOVERWRITE`
when `fOverwrite` is false; the result is `ret == 0`. -/
def CDB.Write {K T : Type} (E : Engine) (cK : Codec K) (cT : Codec T)
    (s : CDB) (key : K) (value : T) (fOverwrite : Bool) :
    Except String (Bool × CDB) :=
  match s.pdb with
  | none => .ok (false, s)
  | some d =>
    if s.fReadOnly then .error "Write called on database in read-only mode"
    else
      let r := E.put d (cK.enc key) (cT.enc value)
        (if fOverwrite then 0 else DB_NOOVERWRITE)
      .ok (decide (r.1 = 0), { s with pdb := some r.2 })

/-- `CDB::Erase` (db.h lines 178-197): null-handle check returns false;
then the read-only `assert`, modelled as `Except.error`; then the engine
delete; the result is `ret == 0 || ret == DB_NOTFOUND`. -/
def CDB.Erase {K : Type} (E : Engine) (cK : Codec K)
    (s : CDB) (key : K) : Except String (Bool × CDB) :=
  match s.pdb with
  | none => .ok (false, s)
  | some d =>
    if s.fReadOnly then .error "Erase called on database in read-only mode"
    else
      let r := E.del d (cK.enc key)
      .ok (decide (r.1 = 0 ∨ r.1 = DB_NOTFOUND), { s with pdb := some r.2 })

/-- `CDB::Exists` (db.h lines 199-216): null-handle check returns false;
then the engine existence probe; the result is `ret == 0`. -/
def CDB.Exists {K : Type} (E : Engine) (cK : Codec K)
    (s : CDB) (key : K) : Bool :=
  match s.pdb with
  | none => false
  | some d => decide (E.exst d (cK.enc key) = 0)

/-- A concrete codec used to instantiate witnesses: a `Nat` serialized
as a one-byte sequence. Round-trips: `dec (enc n) = some n`. -/
def natCodec : Codec Nat where
  enc n := [n]
  dec bs :=
    match bs with
    | [n] => some n
    | _ => none

/-- `CDBEnv::TxnBegin` (db.h lines 80-87): calls the engine's
`txn_begin` with the caller's flags (abstracted as the response function
`txnBeginEngine`, returning the raw status and the transaction pointer
written through `&ptxn`); returns NULL (`none`) when the pointer is null
or the status is nonzero, and the pointer otherwise. Returns a value in
every case: it never throws. -/
def CDBEnv.TxnBegin (txnBeginEngine : Nat → Int × Option Nat) (flags : Nat) : Option Nat :=
  let r := txnBeginEngine flags
  match r.2 with
  | none => none
  | some ptxn => if r.1 ≠ 0 then none else some ptxn

/-- The C++ declaration gives `TxnBegin` the default argument
`flags = DB_TXN_WRITE_NOSYNC`; this is the no-argument call form. -/
def CDBEnv.TxnBeginDefault (txnBeginEngine : Nat → Int × Option Nat) : Option Nat :=
  CDBEnv.TxnBegin txnBeginEngine DB_TXN_WRITE_NOSYNC

/-- `CDB::TxnBegin` (db.h lines 252-261): fails when the handle is null
or a transaction is already active; asks `bitdb.TxnBegin()` (the
default-flags form) for a transaction; on a null result fails, otherwise
stores it as the active transaction. -/
def CDB.TxnBegin (txnBeginEngine : Nat → Int × Option Nat) (s : CDB) : Bool × CDB :=
  if s.pdb.isNone || s.activeTxn.isSome then (false, s)
  else
    match CDBEnv.TxnBeginDefault txnBeginEngine with
    | none => (false, s)
    | some ptxn => (true, { s with activeTxn := some ptxn })

/-- `CDB::TxnCommit` (db.h lines 263-270): fails when the handle is null
or no transaction is active; otherwise issues the engine commit (raw
status abstracted as `commitRet`), unconditionally clears the active
transaction, and returns `ret == 0`. -/
def CDB.TxnCommit (commitRet : Int) (s : CDB) : Bool × CDB :=
  if s.pdb.isNone || s.activeTxn.isNone then (false, s)
  else (decide (commitRet = 0), { s with activeTxn := none })

/-- `CDB::TxnAbort` (db.h lines 272-279): fails when the handle is null
or no transaction is active; otherwise issues the engine abort (raw
status abstracted as `abortRet`), unconditionally clears the active
transaction, and returns `ret == 0`. -/
def CDB.TxnAbort (abortRet : Int) (s : CDB) : Bool × CDB :=
  if s.pdb.isNone || s.activeTxn.isNone then (false, s)
  else (decide (abortRet = 0), { s with activeTxn := none })

/-- The seek-target key `DBT` built by `ReadAtCursor` (db.h lines
222-225): the caller-pre-filled key buffer is passed to the engine
exactly for the `DB_SET`, `DB_SET_RANGE`, `DB_GET_BOTH` and
`DB_GET_BOTH_RANGE` positioning flags, and a zeroed `DBT` otherwise. -/
def cursorKeyTarget (fFlags : Nat) (ssKey : Bytes) : Option Bytes :=
  if fFlags = DB_SET ∨ fFlags = DB_SET_RANGE ∨ fFlags = DB_GET_BOTH ∨
      fFlags = DB_GET_BOTH_RANGE then
    some ssKey
  else none

/-- The seek-target value `DBT` built by `ReadAtCursor` (db.h lines
227-230): the caller-pre-filled value buffer is passed to the engine
exactly for the `DB_GET_BOTH` and `DB_GET_BOTH_RANGE` flags. -/
def cursorValueTarget (fFlags : Nat) (ssValue : Bytes) : Option Bytes :=
  if fFlags = DB_GET_BOTH ∨ fFlags = DB_GET_BOTH_RANGE then some ssValue
  else none

/-- `CDB::ReadAtCursor` (db.h lines 218-249): builds the seek-target
`DBT`s from the flags, issues the cursor get (`cget`, returning the raw
status and the possibly-null key/value data pointers), returns any
nonzero status as-is with the buffers untouched; on status 0 with a null
key or value data pointer returns the sentinel `99999` with the buffers
untouched; otherwise overwrites both buffers with the retrieved raw
record and returns 0. -/
def CDB.ReadAtCursor
    (cget : Option Bytes → Option Bytes → Nat → Int × Option Bytes × Option Bytes)
    (ssKey ssValue : Bytes) (fFlags : Nat) : Int × Bytes × Bytes :=
  let r := cget (cursorKeyTarget fFlags ssKey) (cursorValueTarget fFlags ssValue) fFlags
  if r.1 ≠ 0 then (r.1, ssKey, ssValue)
  else
    match r.2.1, r.2.2 with
    | some k, some v => (0, k, v)
    | some _, none => (99999, ssKey, ssValue)
    | none, some _ => (99999, ssKey, ssValue)
    | none, none => (99999, ssKey, ssValue)

/-- The handle-tracking state of `CDBEnv` (db.h lines 46-47): the
`file → reference-count` map `mapFileUseCount` and the
`file → open-handle` map `mapDb` (the `DB*` handle abstracted to a
numeric id, since only key membership matters to the tracked
invariants). Both are association lists mirroring `std::map`. -/
structure CDBEnvState where
  mapFileUseCount : List (String × Nat)
  mapDb : List (String × Nat)
deriving DecidableEq

/-- The environment with no files open. -/
def CDBEnvState.empty : CDBEnvState := ⟨[], []⟩

/-- The reference count the environment tracks for file `f` (0 when the
file has no `mapFileUseCount` entry). -/
def CDBEnvState.countOf (e : CDBEnvState) (f : String) : Nat :=
  (alookup e.mapFileUseCount f).getD 0

/-- Modelled from the spec: the body of the `CDB` constructor (declared
at db.h line 102, defined in `db.cpp`, which is not part of this
repository snapshot) — the `OpenFile` path of spec section 4.1: "if the
file is already open, increments its reference count and returns the
existing handle; otherwise opens a new handle inside the environment,
inserts it with reference count 1." -/
def CDBEnvState.openFile (e : CDBEnvState) (f : String) : CDBEnvState :=
  match alookup e.mapFileUseCount f with
  | some n => { e with mapFileUseCount := aset e.mapFileUseCount f (n + 1) }
  | none =>
    { mapFileUseCount := aset e.mapFileUseCount f 1
      mapDb := aset e.mapDb f 0 }

/-- Modelled from the spec: the bodies of `CDB::Close` and
`CDBEnv::CloseDb` (declared at db.h lines 77 and 106, defined in
`db.cpp`, which is not part of this repository snapshot) — the
`CloseFile` operation of spec section 4.1: "decrements reference count;
when it reaches zero, closes the underlying handle and removes both map
entries. No-op if the file is not currently tracked." -/
def CDBEnvState.closeFile (e : CDBEnvState) (f : String) : CDBEnvState :=
  match alookup e.mapFileUseCount f with
  | none => e
  | some n =>
    if n ≤ 1 then
      { mapFileUseCount := aerase e.mapFileUseCount f
        mapDb := aerase e.mapDb f }
    else { e with mapFileUseCount := aset e.mapFileUseCount f (n - 1) }

/-- A lifecycle event of one Record Accessor: successful construction
on file `f` (which calls the environment's open-file path) or
destruction (which calls the close-file path). -/
inductive EnvEvent where
  | openF (f : String)
  | closeF (f : String)
deriving DecidableEq

/-- Run a sequence of accessor lifecycle events against an environment
state. -/
def runEnv (e : CDBEnvState) : List EnvEvent → CDBEnvState
  | [] => e
  | EnvEvent.openF f :: rest => runEnv (e.openFile f) rest
  | EnvEvent.closeF f :: rest => runEnv (e.closeFile f) rest

/-- The number of currently-live accessors per file after a sequence of
events, starting from the live-count function `live`. -/
def liveAux (live : String → Nat) : List EnvEvent → String → Nat
  | [] => live
  | EnvEvent.openF f :: rest =>
    liveAux (fun x => if x = f then live x + 1 else live x) rest
  | EnvEvent.closeF f :: rest =>
    liveAux (fun x => if x = f then live x - 1 else live x) rest

/-- A trace is well-formed when every destruction event destroys an
accessor that is actually live (accessors are destroyed at most once,
and only after being constructed). -/
def wfAux (live : String → Nat) : List EnvEvent → Bool
  | [] => true
  | EnvEvent.openF f :: rest =>
    wfAux (fun x => if x = f then live x + 1 else live x) rest
  | EnvEvent.closeF f :: rest =>
    decide (1 ≤ live f) && wfAux (fun x => if x = f then live x - 1 else live x) rest

/-- The number of currently-live accessors for file `f` over a whole
trace. -/
def liveAccessors (evs : List EnvEvent) (f : String) : Nat :=
  liveAux (fun _ => 0) evs f

/-- Well-formedness of a whole trace. -/
def wellFormedTrace (evs : List EnvEvent) : Bool :=
  wfAux (fun _ => 0) evs

/-- One record operation issued through a `CDB` accessor, used to state
properties over sequences of intervening operations. -/
inductive DbOp (K T : Type) where
  | writeOp (k : K) (v : T) (fOverwrite : Bool)
  | eraseOp (k : K)
  | readOp (k : K)
  | existsOp (k : K)

/-- The key an operation touches. -/
def DbOp.key {K T : Type} : DbOp K T → K
  | .writeOp k _ _ => k
  | .eraseOp k => k
  | .readOp k => k
  | .existsOp k => k

/-- The accessor state after one record operation. `Read` and `Exists`
leave the state unchanged by construction; for `Write` and `Erase` the
assertion outcome (unreachable on a non-read-only accessor) is mapped to
the unchanged state. -/
def applyOp {K T : Type} (E : Engine) (cK : Codec K) (cT : Codec T)
    (s : CDB) : DbOp K T → CDB
  | .writeOp k v ov =>
    match CDB.Write E cK cT s k v ov with
    | .ok (_, s') => s'
    | .error _ => s
  | .eraseOp k =>
    match CDB.Erase E cK s k with
    | .ok (_, s') => s'
    | .error _ => s
  | .readOp _ => s
  | .existsOp _ => s

/-- The accessor state after a sequence of record operations. -/
def applyOps {K T : Type} (E : Engine) (cK : Codec K) (cT : Codec T)
    (ops : List (DbOp K T)) (s : CDB) : CDB :=
  ops.foldl (applyOp E cK cT) s

/-- Whether a mutating call produced the result value `false` (as
opposed to `true` or to the assertion outcome). -/
def isFalseReturn (r : Except String (Bool × CDB)) : Bool :=
  match r with
  | .ok (false, _) => true
  | _ => false

/-- The invariant relating an environment state to the per-file count
of live accessors: the tracked reference count equals the live-accessor
count, a file has an open handle iff its reference count is at least 1,
and every stored reference-count entry is positive. -/
def envInv (e : CDBEnvState) (live : String → Nat) : Prop :=
  ∀ f, e.countOf f = live f ∧
    (alookup e.mapDb f ≠ none ↔ 1 ≤ e.countOf f) ∧
    (∀ n, alookup e.mapFileUseCount f = some n → 1 ≤ n)

/-- Accessor with a null database handle. -/
def sNull : CDB := ⟨none, none, false⟩

/-- Read-only accessor on an open, empty file. -/
def sRO : CDB := ⟨some [], none, true⟩

/-- Read-write accessor on an open, empty file, no active transaction. -/
def sRW : CDB := ⟨some [], none, false⟩

/-- Read-write accessor with an active transaction. -/
def sTxn : CDB := ⟨some [], some 7, false⟩

/-- Read-write accessor on a file holding the single record
`[1] ↦ [5]` (key 1, value 5 under `natCodec`). -/
def sOne : CDB := ⟨some [([1], [5])], none, false⟩

/-- Read-write accessor on a file whose record under key 1 holds bytes
`[5, 6]`, which `natCodec` fails to decode. -/
def sBad : CDB := ⟨some [([1], [5, 6])], none, false⟩

/- ------------------------------------------------------------------
Basic association-list lemmas.
------------------------------------------------------------------ -/

theorem alookup_aset_self {α β : Type} [DecidableEq α] (l : List (α × β)) (x : α) (y : β) :
    alookup (aset l x y) x = some y := by
  induction l with
  | nil => simp [aset, alookup]
  | cons p rest ih =>
    obtain ⟨a, b⟩ := p
    by_cases h : a = x
    · simp [aset, alookup, h]
    · simp [aset, alookup, h, ih]

theorem alookup_aset_ne {α β : Type} [DecidableEq α] (l : List (α × β)) (x x' : α) (y : β)
    (h : x' ≠ x) : alookup (aset l x y) x' = alookup l x' := by
  induction l with
  | nil => simp [aset, alookup, Ne.symm h]
  | cons p rest ih =>
    obtain ⟨a, b⟩ := p
    by_cases ha : a = x
    · subst ha
      simp [aset, alookup, Ne.symm h]
    · simp [aset, alookup, ha, ih]

theorem alookup_aerase_self {α β : Type} [DecidableEq α] (l : List (α × β)) (x : α) :
    alookup (aerase l x) x = none := by
  induction l with
  | nil => simp [aerase, alookup]
  | cons p rest ih =>
    obtain ⟨a, b⟩ := p
    by_cases h : a = x
    · simpa [aerase, alookup, h] using ih
    · simpa [aerase, alookup, h] using ih

theorem alookup_aerase_ne {α β : Type} [DecidableEq α] (l : List (α × β)) (x x' : α)
    (h : x' ≠ x) : alookup (aerase l x) x' = alookup l x' := by
  induction l with
  | nil => simp [aerase, alookup]
  | cons p rest ih =>
    obtain ⟨a, b⟩ := p
    by_cases ha : a = x
    · subst ha
      simpa [aerase, alookup, Ne.symm h] using ih
    · simp [aerase, alookup, ha, ih]

/- ------------------------------------------------------------------
Claim theorems.
------------------------------------------------------------------ -/

/-- C9: when the accessor's database handle is null, `Read`, `Write`,
`Erase` and `Exists` all return false immediately, for every engine
behavior `E` (so no engine call can influence the result) and with the
accessor state returned unchanged. -/
theorem c9_null_handle_all_ops_fail {K T : Type} (E : Engine) (cK : Codec K) (cT : Codec T)
    (s : CDB) (k : K) (v : T) (fOverwrite : Bool) (h : s.pdb = none) :
    CDB.Read E cK cT s k = (false, (none : Option T)) ∧
    CDB.Write E cK cT s k v fOverwrite = .ok (false, s) ∧
    CDB.Erase E cK s k = .ok (false, s) ∧
    CDB.Exists E cK s k = false := by
  refine ⟨?_, ?_, ?_, ?_⟩ <;>
    simp [CDB.Read, CDB.Write, CDB.Erase, CDB.Exists, h]

/-- C9 witness: the null-handle accessor `sNull`, with every operation
evaluated at key 1 / value 2. -/
theorem c9_null_handle_all_ops_fail_witness :
    CDB.Read bdbEngine natCodec natCodec sNull 1 = (false, (none : Option Nat)) ∧
    CDB.Write bdbEngine natCodec natCodec sNull 1 2 true = .ok (false, sNull) ∧
    CDB.Erase bdbEngine natCodec sNull 1 = .ok (false, sNull) ∧
    CDB.Exists bdbEngine natCodec sNull 1 = false :=
  c9_null_handle_all_ops_fail bdbEngine natCodec natCodec sNull 1 2 true rfl

/-- C1 counterexample: on the read-only accessor `sRO` (valid handle),
`Write` does not return the value `false` — it hits the defensive
`assert`, i.e. the distinguished assertion outcome, so the claim that it
"fails by returning false (a result value, not process termination)" is
false on the code. -/
theorem c1_write_readonly_returns_false_cex :
    CDB.Write bdbEngine natCodec natCodec sRO 1 2 true =
      Except.error "Write called on database in read-only mode" ∧
    isFalseReturn (CDB.Write bdbEngine natCodec natCodec sRO 1 2 true) = false := by
  constructor <;> rfl

/-- C1 amended: on a read-only accessor whose handle is non-null, both
mutating calls `Write` and `Erase` terminate in the defensive assertion
(`assert(!"... called on database in read-only mode")`, modelled as the
distinguished error outcome) instead of returning false; the check sits
right after the null-handle check in each mutating call. -/
theorem c1_readonly_mutators_assert {K T : Type} (E : Engine) (cK : Codec K) (cT : Codec T)
    (s : CDB) (d : EngineDB) (k : K) (v : T) (fOverwrite : Bool)
    (hdb : s.pdb = some d) (hro : s.fReadOnly = true) :
    CDB.Write E cK cT s k v fOverwrite =
      .error "Write called on database in read-only mode" ∧
    CDB.Erase E cK s k = .error "Erase called on database in read-only mode" := by
  constructor <;> simp [CDB.Write, CDB.Erase, hdb, hro]

/-- C1 witness: the read-only accessor `sRO` at key 1, value 2. -/
theorem c1_readonly_mutators_assert_witness :
    CDB.Write bdbEngine natCodec natCodec sRO 1 2 true =
      .error "Write called on database in read-only mode" ∧
    CDB.Erase bdbEngine natCodec sRO 1 =
      .error "Erase called on database in read-only mode" :=
  c1_readonly_mutators_assert bdbEngine natCodec natCodec sRO [] 1 2 true rfl rfl

/-- C4: on an accessor with an open handle, `Read` returns the absent
result `(false, none)` both when the engine finds no record under the
encoded key and when the stored bytes fail to decode (the caught
deserialization exception); the decode failure is indistinguishable
from "not found" in the result, and `Read` is a total function, so
neither case propagates as an exception. -/
theorem c4_read_notfound_and_decode_failure_absent {K T : Type}
    (cK : Codec K) (cT : Codec T) (s : CDB) (d : EngineDB) (k : K)
    (hdb : s.pdb = some d) :
    (alookup d (cK.enc k) = none →
      CDB.Read bdbEngine cK cT s k = (false, (none : Option T))) ∧
    (∀ bs, alookup d (cK.enc k) = some bs → cT.dec bs = none →
      CDB.Read bdbEngine cK cT s k = (false, (none : Option T))) := by
  constructor
  · intro hlk
    simp [CDB.Read, bdbEngine, hdb, hlk]
  · intro bs hlk hdec
    simp [CDB.Read, bdbEngine, hdb, hlk, hdec]

/-- C4 witness: `sRW` (empty file, key absent) and `sBad` (bytes that
`natCodec` cannot decode), both at key 1. -/
theorem c4_read_notfound_and_decode_failure_absent_witness :
    CDB.Read bdbEngine natCodec natCodec sRW 1 = (false, (none : Option Nat)) ∧
    CDB.Read bdbEngine natCodec natCodec sBad 1 = (false, (none : Option Nat)) :=
  ⟨(c4_read_notfound_and_decode_failure_absent natCodec natCodec sRW [] 1 rfl).1 rfl,
   (c4_read_notfound_and_decode_failure_absent natCodec natCodec sBad
      [([1], [5, 6])] 1 rfl).2 [5, 6] (by decide) rfl⟩

/-- C5: `CDBEnv::TxnBegin` passes the caller's flags to the engine and
defaults to `DB_TXN_WRITE_NOSYNC`; whenever the engine reports a
nonzero status or hands back a null transaction pointer, the result is
null (`none`); on status 0 with a non-null pointer it returns that
transaction. The function is total (returns a value on every input), so
it never throws. -/
theorem c5_env_txn_begin (txnBeginEngine : Nat → Int × Option Nat) (flags : Nat) :
    CDBEnv.TxnBeginDefault txnBeginEngine =
      CDBEnv.TxnBegin txnBeginEngine DB_TXN_WRITE_NOSYNC ∧
    (∀ ret ptxn, txnBeginEngine flags = (ret, ptxn) → ret ≠ 0 ∨ ptxn = none →
      CDBEnv.TxnBegin txnBeginEngine flags = none) ∧
    (∀ t, txnBeginEngine flags = (0, some t) →
      CDBEnv.TxnBegin txnBeginEngine flags = some t) := by
  refine ⟨rfl, ?_, ?_⟩
  · intro ret ptxn hg hfail
    rcases hfail with hret | hnull
    · cases ptxn with
      | none => simp [CDBEnv.TxnBegin, hg]
      | some t => simp [CDBEnv.TxnBegin, hg, hret]
    · subst hnull
      simp [CDBEnv.TxnBegin, hg]
  · intro t hg
    simp [CDBEnv.TxnBegin, hg]

/-- C5 witness: an engine that fails with status 1, an engine that
returns a null pointer with status 0, and an engine that succeeds with
transaction 4, all at flag value `DB_TXN_WRITE_NOSYNC`. -/
theorem c5_env_txn_begin_witness :
    CDBEnv.TxnBegin (fun _ => ((1 : Int), some 4)) DB_TXN_WRITE_NOSYNC = none ∧
    CDBEnv.TxnBegin (fun _ => ((0 : Int), (none : Option Nat))) DB_TXN_WRITE_NOSYNC = none ∧
    CDBEnv.TxnBegin (fun _ => ((0 : Int), some 4)) DB_TXN_WRITE_NOSYNC = some 4 :=
  ⟨((c5_env_txn_begin (fun _ => ((1 : Int), some 4)) DB_TXN_WRITE_NOSYNC).2.1
      1 (some 4) rfl (Or.inl (by decide))),
   ((c5_env_txn_begin (fun _ => ((0 : Int), (none : Option Nat))) DB_TXN_WRITE_NOSYNC).2.1
      0 none rfl (Or.inr rfl)),
   ((c5_env_txn_begin (fun _ => ((0 : Int), some 4)) DB_TXN_WRITE_NOSYNC).2.2 4 rfl)⟩

/-- C2: at most one active transaction per accessor. `TxnBegin` fails
(returning the state unchanged) when the handle is null or a
transaction is already active; `TxnCommit` and `TxnAbort` fail when no
transaction is active; and after either `TxnCommit` or `TxnAbort` on an
accessor satisfying its handle invariant (an active transaction implies
a non-null handle, which holds for every accessor the code can build),
no transaction is active — whatever status the engine call returned. -/
theorem c2_txn_discipline (txnBeginEngine : Nat → Int × Option Nat)
    (commitRet abortRet : Int) (s : CDB) :
    (s.pdb = none ∨ s.activeTxn.isSome = true →
      CDB.TxnBegin txnBeginEngine s = (false, s)) ∧
    (s.activeTxn = none →
      CDB.TxnCommit commitRet s = (false, s) ∧ CDB.TxnAbort abortRet s = (false, s)) ∧
    ((s.activeTxn.isSome = true → s.pdb.isSome = true) →
      (CDB.TxnCommit commitRet s).2.activeTxn = none ∧
      (CDB.TxnAbort abortRet s).2.activeTxn = none) := by
  obtain ⟨pdb, txn, ro⟩ := s
  cases pdb <;> cases txn <;>
    simp [CDB.TxnBegin, CDB.TxnCommit, CDB.TxnAbort]

/-- C2 witness: `sTxn` (active transaction 7) and `sRW` (no active
transaction), with engine statuses 0. -/
theorem c2_txn_discipline_witness :
    CDB.TxnBegin (fun _ => ((0 : Int), some 3)) sTxn = (false, sTxn) ∧
    (CDB.TxnCommit 0 sRW = (false, sRW) ∧ CDB.TxnAbort 0 sRW = (false, sRW)) ∧
    ((CDB.TxnCommit 0 sTxn).2.activeTxn = none ∧
      (CDB.TxnAbort 0 sTxn).2.activeTxn = none) :=
  ⟨(c2_txn_discipline (fun _ => ((0 : Int), some 3)) 0 0 sTxn).1 (Or.inr rfl),
   (c2_txn_discipline (fun _ => ((0 : Int), some 3)) 0 0 sRW).2.1 rfl,
   (c2_txn_discipline (fun _ => ((0 : Int), some 3)) 0 0 sTxn).2.2 (fun _ => rfl)⟩

/-- C7: `ReadAtCursor` passes the caller-pre-filled key buffer to the
engine as the seek target exactly for the `DB_SET`, `DB_SET_RANGE`,
`DB_GET_BOTH` and `DB_GET_BOTH_RANGE` flags, and the value buffer
exactly for the two get-both flags (in particular neither for
`DB_NEXT`); on a successful get (status 0, both data pointers non-null)
it overwrites both buffers with the retrieved raw record; and a nonzero
engine status is returned raw, with the buffers untouched. -/
theorem c7_cursor_seek_targets_and_status
    (cget : Option Bytes → Option Bytes → Nat → Int × Option Bytes × Option Bytes)
    (ssKey ssValue : Bytes) (fFlags : Nat) :
    (cursorKeyTarget fFlags ssKey = some ssKey ↔
      (fFlags = DB_SET ∨ fFlags = DB_SET_RANGE ∨ fFlags = DB_GET_BOTH ∨
        fFlags = DB_GET_BOTH_RANGE)) ∧
    (cursorValueTarget fFlags ssValue = some ssValue ↔
      (fFlags = DB_GET_BOTH ∨ fFlags = DB_GET_BOTH_RANGE)) ∧
    cursorKeyTarget DB_NEXT ssKey = none ∧
    cursorValueTarget DB_NEXT ssValue = none ∧
    (∀ ret kd vd,
      cget (cursorKeyTarget fFlags ssKey) (cursorValueTarget fFlags ssValue) fFlags =
        (ret, kd, vd) → ret ≠ 0 →
      CDB.ReadAtCursor cget ssKey ssValue fFlags = (ret, ssKey, ssValue)) ∧
    (∀ k v,
      cget (cursorKeyTarget fFlags ssKey) (cursorValueTarget fFlags ssValue) fFlags =
        (0, some k, some v) →
      CDB.ReadAtCursor cget ssKey ssValue fFlags = (0, k, v)) := by
  refine ⟨?_, ?_, ?_, ?_, ?_, ?_⟩
  · unfold cursorKeyTarget
    split
    · simp_all
    · simp_all
  · unfold cursorValueTarget
    split
    · simp_all
    · simp_all
  · rfl
  · rfl
  · intro ret kd vd hg hne
    simp [CDB.ReadAtCursor, hg, hne]
  · intro k v hg
    simp [CDB.ReadAtCursor, hg]

/-- C7 witness: a successful get under `DB_NEXT` overwriting the
buffers, and a `DB_NOTFOUND` get under `DB_SET` returned raw with the
buffers untouched. -/
theorem c7_cursor_seek_targets_and_status_witness :
    cursorKeyTarget DB_SET [9] = some [9] ∧
    CDB.ReadAtCursor (fun _ _ _ => ((0 : Int), some [1], some [2])) [9] [8] DB_NEXT =
      (0, [1], [2]) ∧
    CDB.ReadAtCursor (fun _ _ _ => (DB_NOTFOUND, none, none)) [9] [8] DB_SET =
      (DB_NOTFOUND, [9], [8]) :=
  ⟨(c7_cursor_seek_targets_and_status (fun _ _ _ => ((0 : Int), some [1], some [2]))
      [9] [8] DB_SET).1.mpr (Or.inl rfl),
   (c7_cursor_seek_targets_and_status (fun _ _ _ => ((0 : Int), some [1], some [2]))
      [9] [8] DB_NEXT).2.2.2.2.2 [1] [2] rfl,
   (c7_cursor_seek_targets_and_status (fun _ _ _ => (DB_NOTFOUND, none, none))
      [9] [8] DB_SET).2.2.2.2.1 DB_NOTFOUND none none rfl (by decide)⟩

/-- C10: when the engine's cursor get reports status 0 but a null key
or value data pointer, `ReadAtCursor` returns the sentinel `99999` and
hands back both caller buffers unmodified; `99999` is not an engine
status code: it is neither the success status 0 nor in Berkeley DB's
reserved error range (in particular it differs from `DB_NOTFOUND`). -/
theorem c10_cursor_null_data_sentinel
    (cget : Option Bytes → Option Bytes → Nat → Int × Option Bytes × Option Bytes)
    (ssKey ssValue : Bytes) (fFlags : Nat) (kd vd : Option Bytes)
    (hg : cget (cursorKeyTarget fFlags ssKey) (cursorValueTarget fFlags ssValue) fFlags =
      (0, kd, vd))
    (hnull : kd = none ∨ vd = none) :
    CDB.ReadAtCursor cget ssKey ssValue fFlags = (99999, ssKey, ssValue) ∧
    ¬ isBdbErrorCode 99999 ∧ (99999 : Int) ≠ 0 ∧ (99999 : Int) ≠ DB_NOTFOUND := by
  refine ⟨?_, ?_, by decide, by decide⟩
  · rcases hnull with hk | hv
    · subst hk
      cases vd <;> simp [CDB.ReadAtCursor, hg]
    · subst hv
      cases kd <;> simp [CDB.ReadAtCursor, hg]
  · intro h
    exact absurd h.2 (by decide)

/-- C10 witness: a cursor get returning status 0 with a null value data
pointer, at the `DB_NEXT` positioning flag. -/
theorem c10_cursor_null_data_sentinel_witness :
    CDB.ReadAtCursor (fun _ _ _ => ((0 : Int), some [1], none)) [9] [8] DB_NEXT =
      (99999, [9], [8]) ∧
    ¬ isBdbErrorCode 99999 ∧ (99999 : Int) ≠ 0 ∧ (99999 : Int) ≠ DB_NOTFOUND :=
  c10_cursor_null_data_sentinel (fun _ _ _ => ((0 : Int), some [1], none))
    [9] [8] DB_NEXT (some [1]) none rfl (Or.inr rfl)

/-- C3: on a usable accessor (open handle, not read-only), `Erase`
returns true both when the encoded key is present (and then removes it)
and when it is already absent; for an arbitrary engine, `Erase` returns
false exactly when the engine's delete status is a genuine error —
neither 0 nor `DB_NOTFOUND`; and erasing the same key twice in a row
leaves the state of the first erase unchanged and returns true, so it
is equivalent to erasing once. -/
theorem c3_erase_idempotent {K : Type} (cK : Codec K) (s : CDB) (d : EngineDB) (k : K)
    (hdb : s.pdb = some d) (hro : s.fReadOnly = false) :
    (∀ bs, alookup d (cK.enc k) = some bs →
      CDB.Erase bdbEngine cK s k =
        .ok (true, { s with pdb := some (aerase d (cK.enc k)) })) ∧
    (alookup d (cK.enc k) = none → CDB.Erase bdbEngine cK s k = .ok (true, s)) ∧
    (∀ (E : Engine) (b : Bool) (s' : CDB), CDB.Erase E cK s k = .ok (b, s') →
      (b = false ↔
        ((E.del d (cK.enc k)).1 ≠ 0 ∧ (E.del d (cK.enc k)).1 ≠ DB_NOTFOUND))) ∧
    (∀ (b : Bool) (s₁ : CDB), CDB.Erase bdbEngine cK s k = .ok (b, s₁) →
      CDB.Erase bdbEngine cK s₁ k = .ok (true, s₁)) := by
  have hs : ({ pdb := some d, activeTxn := s.activeTxn, fReadOnly := false } : CDB) = s := by
    obtain ⟨pdb, txn, ro⟩ := s
    simp_all
  refine ⟨?_, ?_, ?_, ?_⟩
  · intro bs hlk
    simp [CDB.Erase, bdbEngine, hdb, hro, hlk, DB_NOTFOUND]
  · intro hlk
    simp [CDB.Erase, bdbEngine, hdb, hro, hlk, DB_NOTFOUND, hs]
  · intro E b s' h
    simp only [CDB.Erase, hdb, hro, Bool.false_eq_true, if_false] at h
    rw [Except.ok.injEq, Prod.mk.injEq] at h
    obtain ⟨hb, _⟩ := h
    subst hb
    simp [decide_eq_false_iff_not, not_or]
  · intro b s₁ h
    simp only [CDB.Erase, hdb, hro, Bool.false_eq_true, if_false] at h
    rw [Except.ok.injEq, Prod.mk.injEq] at h
    obtain ⟨_, hst⟩ := h
    cases hlk : alookup d (cK.enc k) with
    | some bs =>
      simp only [bdbEngine, hlk, Option.isSome_some, if_true] at hst
      subst hst
      simp [CDB.Erase, bdbEngine, hro, alookup_aerase_self, DB_NOTFOUND]
    | none =>
      simp only [bdbEngine, hlk, Option.isSome_none, Bool.false_eq_true, if_false] at hst
      rw [hs] at hst
      subst hst
      simp [CDB.Erase, bdbEngine, hdb, hro, hlk, DB_NOTFOUND, hs]

/-- C3 witness: erasing the absent key 1 on the empty file `sRW`
returns true and leaves the state unchanged; erasing the present key 1
on `sOne` returns true and removes the record. -/
theorem c3_erase_idempotent_witness :
    CDB.Erase bdbEngine natCodec sRW 1 = .ok (true, sRW) ∧
    CDB.Erase bdbEngine natCodec sOne 1 =
      .ok (true, { sOne with pdb := some (aerase [([1], [5])] [1]) }) :=
  ⟨(c3_erase_idempotent natCodec sRW [] 1 rfl rfl).2.1 rfl,
   (c3_erase_idempotent natCodec sOne [([1], [5])] 1 rfl rfl).1 [5] (by decide)⟩

theorem bdb_put_lookup_ne (d : EngineDB) (kb kb' vb' : Bytes) (fl : Nat) (h : kb ≠ kb') :
    alookup (bdbEngine.put d kb' vb' fl).2 kb = alookup d kb := by
  simp only [bdbEngine]
  split
  · rfl
  · exact alookup_aset_ne d kb' kb vb' h

theorem bdb_del_lookup_ne (d : EngineDB) (kb kb' : Bytes) (h : kb ≠ kb') :
    alookup (bdbEngine.del d kb').2 kb = alookup d kb := by
  simp only [bdbEngine]
  split
  · exact alookup_aerase_ne d kb' kb h
  · rfl

theorem applyOp_preserves {K T : Type} (cK : Codec K) (cT : Codec T)
    (kb vb : Bytes) (op : DbOp K T) (s : CDB) (d : EngineDB)
    (hdb : s.pdb = some d) (hro : s.fReadOnly = false)
    (hlk : alookup d kb = some vb) (hne : cK.enc (DbOp.key op) ≠ kb) :
    ∃ d', (applyOp bdbEngine cK cT s op).pdb = some d' ∧
      (applyOp bdbEngine cK cT s op).fReadOnly = false ∧
      alookup d' kb = some vb := by
  cases op with
  | writeOp k' v' ov' =>
    refine ⟨(bdbEngine.put d (cK.enc k') (cT.enc v')
        (if ov' then 0 else DB_NOOVERWRITE)).2, ?_, ?_, ?_⟩
    · simp [applyOp, CDB.Write, hdb, hro]
    · simp [applyOp, CDB.Write, hdb, hro]
    · rw [bdb_put_lookup_ne d kb (cK.enc k') (cT.enc v') _
        (Ne.symm (by simpa [DbOp.key] using hne))]
      exact hlk
  | eraseOp k' =>
    refine ⟨(bdbEngine.del d (cK.enc k')).2, ?_, ?_, ?_⟩
    · simp [applyOp, CDB.Erase, hdb, hro]
    · simp [applyOp, CDB.Erase, hdb, hro]
    · rw [bdb_del_lookup_ne d kb (cK.enc k')
        (Ne.symm (by simpa [DbOp.key] using hne))]
      exact hlk
  | readOp k' => exact ⟨d, by simpa [applyOp] using hdb, by simpa [applyOp] using hro, hlk⟩
  | existsOp k' => exact ⟨d, by simpa [applyOp] using hdb, by simpa [applyOp] using hro, hlk⟩

theorem applyOps_preserves {K T : Type} (cK : Codec K) (cT : Codec T) (kb vb : Bytes) :
    ∀ (ops : List (DbOp K T)) (s : CDB) (d : EngineDB),
    s.pdb = some d → s.fReadOnly = false → alookup d kb = some vb →
    (∀ op ∈ ops, cK.enc (DbOp.key op) ≠ kb) →
    ∃ d', (applyOps bdbEngine cK cT ops s).pdb = some d' ∧
      (applyOps bdbEngine cK cT ops s).fReadOnly = false ∧
      alookup d' kb = some vb := by
  intro ops
  induction ops with
  | nil =>
    intro s d hdb hro hlk _
    exact ⟨d, by simpa [applyOps] using hdb, by simpa [applyOps] using hro, hlk⟩
  | cons op rest ih =>
    intro s d hdb hro hlk hne
    obtain ⟨d', h1, h2, h3⟩ := applyOp_preserves cK cT kb vb op s d hdb hro hlk
      (hne op (List.mem_cons_self op rest))
    have hrest : ∀ o ∈ rest, cK.enc (DbOp.key o) ≠ kb :=
      fun o ho => hne o (List.mem_cons_of_mem op ho)
    have hstep := ih (applyOp bdbEngine cK cT s op) d' h1 h2 h3 hrest
    simpa [applyOps, List.foldl_cons] using hstep

theorem write_ok_true_state {K T : Type} (cK : Codec K) (cT : Codec T)
    (s s₁ : CDB) (k : K) (v : T) (fOverwrite : Bool)
    (hw : CDB.Write bdbEngine cK cT s k v fOverwrite = .ok (true, s₁)) :
    ∃ d, s.pdb = some d ∧ s.fReadOnly = false ∧
      s₁ = { pdb := some (aset d (cK.enc k) (cT.enc v)),
             activeTxn := s.activeTxn, fReadOnly := false } := by
  cases hdb : s.pdb with
  | none => simp [CDB.Write, hdb] at hw
  | some d =>
    cases hro : s.fReadOnly with
    | true => simp [CDB.Write, hdb, hro] at hw
    | false =>
      refine ⟨d, rfl, rfl, ?_⟩
      cases fOverwrite with
      | true =>
        simp [CDB.Write, hdb, hro, bdbEngine, DB_NOOVERWRITE] at hw
        exact hw.symm
      | false =>
        cases hmem : (alookup d (cK.enc k)).isSome with
        | true =>
          simp [CDB.Write, hdb, hro, bdbEngine, DB_NOOVERWRITE, DB_KEYEXIST, hmem] at hw
        | false =>
          simp [CDB.Write, hdb, hro, bdbEngine, DB_NOOVERWRITE, hmem] at hw
          exact hw.symm

/-- C6: a successful `Write` of `(k, v)` (for a value that round-trips
through the codec) followed by any sequence of record operations on
keys whose encodings differ from that of `k`, followed by a `Read` of
`k` on the same accessor, returns `v`. -/
theorem c6_write_read_roundtrip {K T : Type} (cK : Codec K) (cT : Codec T)
    (s s₁ : CDB) (k : K) (v : T) (fOverwrite : Bool) (ops : List (DbOp K T))
    (hcodec : cT.dec (cT.enc v) = some v)
    (hw : CDB.Write bdbEngine cK cT s k v fOverwrite = .ok (true, s₁))
    (hops : ∀ op ∈ ops, cK.enc (DbOp.key op) ≠ cK.enc k) :
    CDB.Read bdbEngine cK cT (applyOps bdbEngine cK cT ops s₁) k = (true, some v) := by
  obtain ⟨d, hdb, hro, hst⟩ := write_ok_true_state cK cT s s₁ k v fOverwrite hw
  have h1 : s₁.pdb = some (aset d (cK.enc k) (cT.enc v)) := by rw [hst]
  have h2 : s₁.fReadOnly = false := by rw [hst]
  have h3 : alookup (aset d (cK.enc k) (cT.enc v)) (cK.enc k) = some (cT.enc v) :=
    alookup_aset_self d (cK.enc k) (cT.enc v)
  obtain ⟨d₂, g1, g2, g3⟩ :=
    applyOps_preserves cK cT (cK.enc k) (cT.enc v) ops s₁ _ h1 h2 h3 hops
  have hget : bdbEngine.get d₂ (cK.enc k) = (0, some (cT.enc v)) := by
    simp [bdbEngine, g3]
  simp [CDB.Read, g1, hget, hcodec]

/-- C6 witness: write key 1 ↦ 5 on the empty file, then a write to
key 2, an erase of key 3 and a read of key 2 in between; reading key 1
still returns 5. -/
theorem c6_write_read_roundtrip_witness :
    CDB.Read bdbEngine natCodec natCodec
      (applyOps bdbEngine natCodec natCodec
        [DbOp.writeOp 2 9 true, DbOp.eraseOp 3, DbOp.readOp 2]
        (⟨some [([1], [5])], none, false⟩ : CDB)) 1 = (true, some 5) :=
  c6_write_read_roundtrip natCodec natCodec sRW
    (⟨some [([1], [5])], none, false⟩ : CDB) 1 5 true
    [DbOp.writeOp 2 9 true, DbOp.eraseOp 3, DbOp.readOp 2]
    rfl rfl (by decide)

theorem openFile_eq_some (e : CDBEnvState) (f : String) (n : Nat)
    (hl : alookup e.mapFileUseCount f = some n) :
    (e.openFile f).mapFileUseCount = aset e.mapFileUseCount f (n + 1) ∧
    (e.openFile f).mapDb = e.mapDb := by
  simp [CDBEnvState.openFile, hl]

theorem openFile_eq_none (e : CDBEnvState) (f : String)
    (hl : alookup e.mapFileUseCount f = none) :
    (e.openFile f).mapFileUseCount = aset e.mapFileUseCount f 1 ∧
    (e.openFile f).mapDb = aset e.mapDb f 0 := by
  simp [CDBEnvState.openFile, hl]

theorem closeFile_eq_none (e : CDBEnvState) (f : String)
    (hl : alookup e.mapFileUseCount f = none) : e.closeFile f = e := by
  simp [CDBEnvState.closeFile, hl]

theorem closeFile_eq_last (e : CDBEnvState) (f : String) (n : Nat)
    (hl : alookup e.mapFileUseCount f = some n) (hn : n ≤ 1) :
    (e.closeFile f).mapFileUseCount = aerase e.mapFileUseCount f ∧
    (e.closeFile f).mapDb = aerase e.mapDb f := by
  simp [CDBEnvState.closeFile, hl, hn]

theorem closeFile_eq_dec (e : CDBEnvState) (f : String) (n : Nat)
    (hl : alookup e.mapFileUseCount f = some n) (hn : ¬ n ≤ 1) :
    (e.closeFile f).mapFileUseCount = aset e.mapFileUseCount f (n - 1) ∧
    (e.closeFile f).mapDb = e.mapDb := by
  simp [CDBEnvState.closeFile, hl, hn]

theorem envInv_openFile (e : CDBEnvState) (live : String → Nat) (f : String)
    (h : envInv e live) :
    envInv (e.openFile f) (fun x => if x = f then live x + 1 else live x) := by
  cases hl : alookup e.mapFileUseCount f with
  | some n =>
    obtain ⟨hm1, hm2⟩ := openFile_eq_some e f n hl
    have hn1 : 1 ≤ n := (h f).2.2 n hl
    have hnl : n = live f := by
      have hc := (h f).1
      simpa [CDBEnvState.countOf, hl] using hc
    intro g
    by_cases hg : g = f
    · subst hg
      refine ⟨?_, ?_, ?_⟩
      · simp [CDBEnvState.countOf, hm1, alookup_aset_self, hnl]
      · have hdb : alookup e.mapDb g ≠ none :=
          (h g).2.1.mpr (by simp [CDBEnvState.countOf, hl]; omega)
        rw [hm2]
        exact iff_of_true hdb (by simp [CDBEnvState.countOf, hm1, alookup_aset_self])
      · intro m hm
        rw [hm1, alookup_aset_self] at hm
        simp only [Option.some.injEq] at hm
        omega
    · refine ⟨?_, ?_, ?_⟩
      · have := (h g).1
        simpa [CDBEnvState.countOf, hm1, alookup_aset_ne _ f g _ hg, hg] using this
      · have := (h g).2.1
        simpa [CDBEnvState.countOf, hm1, hm2, alookup_aset_ne _ f g _ hg, hg] using this
      · intro m hm
        rw [hm1, alookup_aset_ne _ f g _ hg] at hm
        exact (h g).2.2 m hm
  | none =>
    obtain ⟨hm1, hm2⟩ := openFile_eq_none e f hl
    have h0 : live f = 0 := by
      have hc := (h f).1
      simpa [CDBEnvState.countOf, hl] using hc.symm
    intro g
    by_cases hg : g = f
    · subst hg
      refine ⟨?_, ?_, ?_⟩
      · simp [CDBEnvState.countOf, hm1, alookup_aset_self, h0]
      · refine iff_of_true ?_ ?_
        · rw [hm2, alookup_aset_self]
          simp
        · simp [CDBEnvState.countOf, hm1, alookup_aset_self]
      · intro m hm
        rw [hm1, alookup_aset_self] at hm
        simp only [Option.some.injEq] at hm
        omega
    · refine ⟨?_, ?_, ?_⟩
      · have := (h g).1
        simpa [CDBEnvState.countOf, hm1, alookup_aset_ne _ f g _ hg, hg] using this
      · have := (h g).2.1
        simpa [CDBEnvState.countOf, hm1, hm2, alookup_aset_ne _ f g _ hg, hg] using this
      · intro m hm
        rw [hm1, alookup_aset_ne _ f g _ hg] at hm
        exact (h g).2.2 m hm

theorem envInv_closeFile (e : CDBEnvState) (live : String → Nat) (f : String)
    (hlv : 1 ≤ live f) (h : envInv e live) :
    envInv (e.closeFile f) (fun x => if x = f then live x - 1 else live x) := by
  cases hl : alookup e.mapFileUseCount f with
  | none =>
    exfalso
    have hc := (h f).1
    simp [CDBEnvState.countOf, hl] at hc
    omega
  | some n =>
    have hn1 : 1 ≤ n := (h f).2.2 n hl
    have hnl : n = live f := by
      have hc := (h f).1
      simpa [CDBEnvState.countOf, hl] using hc
    by_cases hn : n ≤ 1
    · obtain ⟨hm1, hm2⟩ := closeFile_eq_last e f n hl hn
      intro g
      by_cases hg : g = f
      · subst hg
        refine ⟨?_, ?_, ?_⟩
        · simp [CDBEnvState.countOf, hm1, alookup_aerase_self]
          omega
        · rw [hm2]
          refine iff_of_false ?_ ?_
          · simp [alookup_aerase_self]
          · simp [CDBEnvState.countOf, hm1, alookup_aerase_self]
        · intro m hm
          rw [hm1, alookup_aerase_self] at hm
          exact absurd hm (by simp)
      · refine ⟨?_, ?_, ?_⟩
        · have := (h g).1
          simpa [CDBEnvState.countOf, hm1, alookup_aerase_ne _ f g hg, hg] using this
        · have := (h g).2.1
          simpa [CDBEnvState.countOf, hm1, hm2, alookup_aerase_ne _ f g hg, hg] using this
        · intro m hm
          rw [hm1, alookup_aerase_ne _ f g hg] at hm
          exact (h g).2.2 m hm
    · obtain ⟨hm1, hm2⟩ := closeFile_eq_dec e f n hl hn
      intro g
      by_cases hg : g = f
      · subst hg
        refine ⟨?_, ?_, ?_⟩
        · simp [CDBEnvState.countOf, hm1, alookup_aset_self]
          omega
        · have hdb : alookup e.mapDb g ≠ none :=
            (h g).2.1.mpr (by simp [CDBEnvState.countOf, hl]; omega)
          rw [hm2]
          refine iff_of_true hdb ?_
          simp [CDBEnvState.countOf, hm1, alookup_aset_self]
          omega
        · intro m hm
          rw [hm1, alookup_aset_self] at hm
          simp only [Option.some.injEq] at hm
          omega
      · refine ⟨?_, ?_, ?_⟩
        · have := (h g).1
          simpa [CDBEnvState.countOf, hm1, alookup_aset_ne _ f g _ hg, hg] using this
        · have := (h g).2.1
          simpa [CDBEnvState.countOf, hm1, hm2, alookup_aset_ne _ f g _ hg, hg] using this
        · intro m hm
          rw [hm1, alookup_aset_ne _ f g _ hg] at hm
          exact (h g).2.2 m hm

theorem envInv_run (evs : List EnvEvent) :
    ∀ (e : CDBEnvState) (live : String → Nat), wfAux live evs = true → envInv e live →
    envInv (runEnv e evs) (liveAux live evs) := by
  induction evs with
  | nil =>
    intro e live _ h
    simpa [runEnv, liveAux] using h
  | cons ev rest ih =>
    intro e live hwf h
    cases ev with
    | openF f =>
      simp only [wfAux] at hwf
      simp only [runEnv, liveAux]
      exact ih _ _ hwf (envInv_openFile e live f h)
    | closeF f =>
      simp only [wfAux, Bool.and_eq_true, decide_eq_true_eq] at hwf
      simp only [runEnv, liveAux]
      exact ih _ _ hwf.2 (envInv_closeFile e live f hwf.1 h)

/-- C8: after any well-formed sequence of accessor constructions and
destructions starting from the empty environment, a file `f` is a key
of the `file → open-handle` map `mapDb` iff its tracked reference count
is at least 1; the reference count equals the number of currently-live
accessors that opened `f`; and when the last such accessor is destroyed
(live count 0), `f` is absent from `mapDb`.
The open-file and close-file bodies live in `db.cpp`, which is not part
of this repository snapshot, so they are modelled from the spec
(`CDBEnvState.openFile` / `CDBEnvState.closeFile`). -/
theorem c8_refcount_invariant (evs : List EnvEvent) (f : String)
    (hwf : wellFormedTrace evs = true) :
    (alookup (runEnv CDBEnvState.empty evs).mapDb f ≠ none ↔
      1 ≤ (runEnv CDBEnvState.empty evs).countOf f) ∧
    (runEnv CDBEnvState.empty evs).countOf f = liveAccessors evs f ∧
    (liveAccessors evs f = 0 →
      alookup (runEnv CDBEnvState.empty evs).mapDb f = none) := by
  have h0 : envInv CDBEnvState.empty (fun _ => 0) := by
    intro g
    refine ⟨?_, ?_, ?_⟩
    · simp [CDBEnvState.countOf, CDBEnvState.empty, alookup]
    · simp [CDBEnvState.countOf, CDBEnvState.empty, alookup]
    · intro m hm
      simp [CDBEnvState.empty, alookup] at hm
  have h := envInv_run evs CDBEnvState.empty (fun _ => 0) hwf h0
  obtain ⟨hc, hdb, _⟩ := h f
  refine ⟨hdb, hc, ?_⟩
  intro hz
  by_contra hne
  have h1 := hdb.mp hne
  rw [hc] at h1
  have hz2 : liveAux (fun _ => 0) evs f = 0 := hz
  omega

/-- C8 witness: the trace open a, open a, open b, close a, close b,
close a; afterwards the live count for "a" is 0 and "a" has no
open-handle entry. -/
theorem c8_refcount_invariant_witness :
    (runEnv CDBEnvState.empty
      [EnvEvent.openF "a", EnvEvent.openF "a", EnvEvent.openF "b",
       EnvEvent.closeF "a", EnvEvent.closeF "b", EnvEvent.closeF "a"]).countOf "a" =
      liveAccessors
        [EnvEvent.openF "a", EnvEvent.openF "a", EnvEvent.openF "b",
         EnvEvent.closeF "a", EnvEvent.closeF "b", EnvEvent.closeF "a"] "a" ∧
    (liveAccessors
        [EnvEvent.openF "a", EnvEvent.openF "a", EnvEvent.openF "b",
         EnvEvent.closeF "a", EnvEvent.closeF "b", EnvEvent.closeF "a"] "a" = 0 →
      alookup (runEnv CDBEnvState.empty
        [EnvEvent.openF "a", EnvEvent.openF "a", EnvEvent.openF "b",
         EnvEvent.closeF "a", EnvEvent.closeF "b", EnvEvent.closeF "a"]).mapDb "a" =
        none) :=
  ⟨(c8_refcount_invariant
      [EnvEvent.openF "a", EnvEvent.openF "a", EnvEvent.openF "b",
       EnvEvent.closeF "a", EnvEvent.closeF "b", EnvEvent.closeF "a"] "a"
      (by decide)).2.1,
   (c8_refcount_invariant
      [EnvEvent.openF "a", EnvEvent.openF "a", EnvEvent.openF "b",
       EnvEvent.closeF "a", EnvEvent.closeF "b", EnvEvent.closeF "a"] "a"
      (by decide)).2.2⟩
